import Mathlib

/-!
Verification development for the OpenDiablo2 map renderer
(`d2core/d2map/d2maprenderer/renderer.go`).

The file has two groups of definitions followed by the theorems:

* an exact model of IEEE-754 binary64 ("float64") arithmetic (round to
  nearest, ties to even) over a raw fraction type `Frac`, used to embed the
  animation clock `MapRenderer.Advance`;
* a trace semantics for the three-pass renderer: every call the renderer
  makes on the viewport translation stack and on the target surface is
  recorded as an event, and the viewport stack is threaded explicitly.

Parts of the repository that `renderer.go` uses but that are outside the
given source (the `Viewport`, the `d2ds1` record types, `d2enum` tile
types, the map engine and the surface) are modelled from the spec; each
such definition carries a doc comment saying so.
-/

/-- Raw fraction: an integer numerator over a positive integer denominator.
No normalisation invariant is carried; every operation below keeps the
denominator positive, and statements compare fractions with `Frac.eqv`. -/
structure Frac where
  num : ℤ
  den : ℤ
deriving DecidableEq

/-- Embed an integer as a fraction. -/
def Frac.ofInt (n : ℤ) : Frac := ⟨n, 1⟩

/-- Exact sum of fractions (cross multiplication, no reduction). -/
def Frac.add (x y : Frac) : Frac := ⟨x.num * y.den + y.num * x.den, x.den * y.den⟩

/-- Exact difference of fractions. -/
def Frac.sub (x y : Frac) : Frac := ⟨x.num * y.den - y.num * x.den, x.den * y.den⟩

/-- Exact product of fractions. -/
def Frac.mul (x y : Frac) : Frac := ⟨x.num * y.num, x.den * y.den⟩

/-- Exact quotient of fractions, keeping the denominator positive. -/
def Frac.div (x y : Frac) : Frac :=
  if 0 ≤ y.num then ⟨x.num * y.den, x.den * y.num⟩
  else ⟨-(x.num * y.den), x.den * (-y.num)⟩

/-- Semantic equality of raw fractions. -/
abbrev Frac.eqv (x y : Frac) : Prop := x.num * y.den = y.num * x.den

/-- Floor of a fraction (the denominator is positive). -/
def Frac.floor (q : Frac) : ℤ := Int.fdiv q.num q.den

/-- Powers of two as integers. -/
def ipow2 : Nat → ℤ
  | 0 => 1
  | k + 1 => 2 * ipow2 k

/-- Fuel-bounded binade search for a fraction `a ≥ 1`: the largest `n` with
`2 ^ n ≤ a` (correct whenever the fuel exceeds that `n`). -/
def ilog2Up : Nat → Frac → Nat
  | 0, _ => 0
  | fuel + 1, a => if a.num < 2 * a.den then 0 else ilog2Up fuel ⟨a.num, a.den * 2⟩ + 1

/-- Fuel-bounded binade search for a fraction `0 < a < 1`: the least `k`
with `1 ≤ a * 2 ^ k` (correct whenever the fuel exceeds that `k`). -/
def ilog2Down : Nat → Frac → Nat
  | 0, _ => 0
  | fuel + 1, a => if a.den ≤ a.num then 0 else ilog2Down fuel ⟨a.num * 2, a.den⟩ + 1

/-- Floor of the base-two logarithm of a positive fraction.  The fuel 1200
covers every magnitude from `2 ^ (-1200)` to `2 ^ 1200`, beyond the whole
binary64 exponent range. -/
def ilog2 (a : Frac) : ℤ :=
  if a.den ≤ a.num then (ilog2Up 1200 a : ℤ) else -(ilog2Down 1200 a : ℤ)

/-- Round a fraction to the nearest integer, ties to even: `r` below is the
nonnegative remainder of the numerator modulo the (positive) denominator,
and comparing `2 * r` with the denominator compares the fractional part
with one half. -/
def rne (q : Frac) : ℤ :=
  let n := q.floor
  let r := q.num - n * q.den
  if 2 * r < q.den then n
  else if q.den < 2 * r then n + 1
  else if n % 2 = 0 then n else n + 1

/-- Correct rounding of a fraction to binary64 (53-bit significand, round
to nearest, ties to even), with unbounded exponent range: this agrees with
IEEE-754 binary64 arithmetic on every finite, normal magnitude, in
particular on all values arising in the claims below.  The significand is
`rne (|q| * 2 ^ (52 - e))` where `e` is the binade of `|q|`, and the
result is that significand scaled back by `2 ^ (e - 52)`. -/
def fl (q : Frac) : Frac :=
  if q.num = 0 then ⟨0, 1⟩
  else
    let a : Frac := ⟨(q.num.natAbs : ℤ), q.den⟩
    let e := ilog2 a
    let m :=
      if 0 ≤ 52 - e then rne ⟨a.num * ipow2 (52 - e).toNat, a.den⟩
      else rne ⟨a.num, a.den * ipow2 (e - 52).toNat⟩
    let s := if q.num < 0 then -m else m
    if 0 ≤ e - 52 then ⟨s * ipow2 (e - 52).toNat, 1⟩ else ⟨s, ipow2 (52 - e).toNat⟩

/-- Go conversion `int(x)` of a float64: truncation toward zero. -/
def goTrunc (q : Frac) : ℤ :=
  if q.num < 0 then -(Frac.floor ⟨-q.num, q.den⟩) else q.floor

/-- Animation state of `MapRenderer`: the `lastFrameTime` accumulator (a
float64, modelled as its exact value) and the `currentFrame` index (a Go
`int`, modelled as `ℤ`). -/
structure ClockState where
  lastFrameTime : Frac
  currentFrame : ℤ
deriving DecidableEq

/-- The float64 nearest to the Go literal `0.1` (`frameLength` in
`MapRenderer.Advance`); its exact value is `3602879701896397 / 2 ^ 55`. -/
def frameLength : Frac := fl ⟨1, 10⟩

/-- Embedding of `MapRenderer.Advance(elapsed)`: every float64 operation of
the source (`+=`, `/`, the `int` and `float64` conversions, `*`, `-=`) is
performed with correct rounding via `fl`, and the frame index is reset to
zero when it exceeds 9, exactly as in the source. -/
def Advance (elapsed : Frac) (s : ClockState) : ClockState :=
  let t := fl (s.lastFrameTime.add elapsed)
  let framesAdvanced := goTrunc (fl (t.div frameLength))
  let t2 := fl (t.sub (fl ((fl (Frac.ofInt framesAdvanced)).mul frameLength)))
  let cf := s.currentFrame + framesAdvanced
  { lastFrameTime := t2, currentFrame := if cf > 9 then 0 else cf }

/-- The initial animation state: accumulator `0`, frame index `0`. -/
def initClock : ClockState := ⟨⟨0, 1⟩, 0⟩

/-- Run `Advance` once per delta, left to right. -/
def runClock (deltas : List Frac) (s : ClockState) : ClockState :=
  deltas.foldl (fun s d => Advance d s) s

/-- Animation state of the idealised exact-arithmetic clock. -/
structure ClockSpecState where
  lastFrameTime : ℚ
  currentFrame : ℤ
deriving DecidableEq

/-- Modelled from the spec: the exact-arithmetic animation clock of §4.5
(frame duration exactly `1/10`, whole ticks consumed by integer floor,
remainder retained exactly), used to state what the float64 implementation
deviates from. -/
def AdvanceSpec (elapsed : ℚ) (s : ClockSpecState) : ClockSpecState :=
  let t := s.lastFrameTime + elapsed
  let framesAdvanced := ⌊t / (1 / 10 : ℚ)⌋
  let cf := s.currentFrame + framesAdvanced
  { lastFrameTime := t - (framesAdvanced : ℚ) * (1 / 10)
    currentFrame := if cf > 9 then 0 else cf }

/-- Run `AdvanceSpec` once per delta, left to right. -/
def runSpec (deltas : List ℚ) (s : ClockSpecState) : ClockSpecState :=
  deltas.foldl (fun s d => AdvanceSpec d s) s

/-- The initial state of the idealised clock. -/
def initSpec : ClockSpecState := ⟨0, 0⟩

/-- Modelled from the spec: the wall shape-type classification of `d2enum`
(§3, §4.3 classify a wall sub-record as lower, upper, roof, or special). -/
inductive TileType where
  | lower
  | upper
  | roof
  | special
deriving DecidableEq

/-- The `LowerWall()` predicate of the shape-type. -/
def TileType.lowerWall : TileType → Bool := fun t => t == TileType.lower

/-- The `UpperWall()` predicate of the shape-type. -/
def TileType.upperWall : TileType → Bool := fun t => t == TileType.upper

/-- The `Special()` predicate of the shape-type. -/
def TileType.isSpecial : TileType → Bool := fun t => t == TileType.special

/-- Modelled from the spec: the numeric shape-type code handed to the tile
image cache; §4.3 fixes 0 for floors and 13 for shadows, so the wall codes
only need to be distinct from those (15 is the roof code of the source
enum). -/
def TileType.code : TileType → Nat
  | TileType.lower => 1
  | TileType.upper => 2
  | TileType.roof => 15
  | TileType.special => 10

/-- Modelled from the spec: the fields of a `d2ds1.WallRecord` that the
renderer reads (§3). -/
structure WallRecord where
  type : TileType
  hidden : Bool
  prop1 : Nat
  style : Nat
  sequence : Nat
  randomIndex : Nat
  yAdjust : ℤ
deriving DecidableEq

/-- Modelled from the spec: the fields of a `d2ds1.FloorShadowRecord` that
the renderer reads (§3). -/
structure FloorShadowRecord where
  hidden : Bool
  prop1 : Nat
  animated : Bool
  style : Nat
  sequence : Nat
  randomIndex : Nat
  yAdjust : ℤ
deriving DecidableEq

/-- Modelled from the spec: a tile record, with ordered lists of wall,
floor and shadow sub-records (§3). -/
structure TileRecord where
  walls : List WallRecord
  floors : List FloorShadowRecord
  shadows : List FloorShadowRecord
deriving DecidableEq

/-- Modelled from the spec: a map entity as the renderer sees it — a world
position (two float64s, kept exact) and an opaque self-draw, recorded as an
event carrying the entity (§6).  The `id` distinguishes entities. -/
structure MapEntity where
  id : Nat
  posX : Frac
  posY : Frac
deriving DecidableEq

/-- Go conversion `byte(n)` of an `int`: the low 8 bits. -/
def byteOf (n : ℤ) : Nat := (n % 256).toNat

/-- Modelled from the spec: the Transform Engine translation stack (§4.1) —
a LIFO stack of cumulative pixel offsets.  A push computes the new offset
relative to the current top (cumulative, not absolute), a pop restores the
previous one, and `GetTranslationScreen` reads the top without mutation.
The deltas contributed by `PushTranslationWorld` and `PushTranslationOrtho`
are supplied by the render environment, since `renderer.go` treats the
projection itself as a black box. -/
structure Viewport where
  stack : List (ℤ × ℤ)
deriving DecidableEq

/-- The current cumulative offset (zero when the stack is empty). -/
def Viewport.top (vp : Viewport) : ℤ × ℤ := vp.stack.headD (0, 0)

/-- Push a new cumulative offset computed from the top and a delta. -/
def Viewport.pushDelta (vp : Viewport) (d : ℤ × ℤ) : Viewport :=
  ⟨(vp.top.1 + d.1, vp.top.2 + d.2) :: vp.stack⟩

/-- `PopTranslation`: drop the top offset. -/
def Viewport.popTranslation (vp : Viewport) : Viewport := ⟨vp.stack.tail⟩

/-- `GetTranslationScreen`: read the current cumulative offset. -/
def Viewport.getTranslationScreen (vp : Viewport) : ℤ × ℤ := vp.top

/-- One observable action of a `Render` call: pushes and pops on the
viewport translation stack (`vPush`/`vPop`), pushes and pops on the target
surface (`sPush`/`sPushColor`/`sPop`/`sPopN`), image draws, entity
self-draws, the debug primitives, and the log lines emitted on image-cache
misses. -/
inductive REvent where
  | vPush (off : ℤ × ℤ)
  | vPop
  | sPush (off : ℤ × ℤ)
  | sPushColor (r g b a : Nat)
  | sPop
  | sPopN (n : Nat)
  | image (img : Nat)
  | entity (e : MapEntity)
  | line (x y : ℤ) (r g b a : Nat)
  | rect (w h : ℤ) (r g b a : Nat)
  | text (fmt : String) (a b : ℤ)
  | missFloor (style sequence : Nat)
  | missWall (style sequence code : Nat)
  | missShadow (style sequence : Nat)
deriving DecidableEq

/-- The read-only environment of one `Render` call: the bound map engine
(size, tile lookup, entity list, walkability mesh), the tile image cache,
the viewport visibility predicate and projection offsets (modelled from the
spec as opaque functions of the coordinates, since `renderer.go` only
branches on or stores their results), and the `MapRenderer` fields read
while rendering (`currentFrame`, `debugVisLevel`). -/
structure RenderEnv where
  width : Nat
  height : Nat
  tileAt : Nat → Nat → TileRecord
  entities : List MapEntity
  cache : Nat → Nat → Nat → Nat → Option Nat
  visible : Nat → Nat → Bool
  worldDelta : Nat → Nat → ℤ × ℤ
  orthoDelta : ℤ → ℤ → ℤ × ℤ
  worldToScreen : Nat → Nat → ℤ × ℤ
  walkable : Nat → Bool
  currentFrame : ℤ
  debugVisLevel : ℤ

/-- `getImageCacheRecord(style, sequence, tileType, randomIndex)`: pure
lookup returning `none` for a cache miss. -/
def getImageCacheRecord (env : RenderEnv) (style sequence code frame : Nat) : Option Nat :=
  env.cache style sequence code frame

/-- Threads the viewport state through a loop body, concatenating the
emitted events: the shape of every `for` loop in the renderer. -/
def runR {α : Type} (f : Viewport → α → Viewport × List REvent) :
    Viewport → List α → Viewport × List REvent
  | vp, [] => (vp, [])
  | vp, a :: as =>
    let r := f vp a
    let r2 := runR f r.1 as
    (r2.1, r.2 ++ r2.2)

/-- Embedding of `MapRenderer.renderFloor`: resolve the image (animation
frame for animated floors, stored random index otherwise); on a miss log
and return; otherwise push the ortho offset `(-80, yAdjust)` on the
viewport, push the cumulative screen translation on the target, draw, and
pop both (deferred pops run at exit, surface first). -/
def renderFloor (env : RenderEnv) (vp : Viewport) (tile : FloorShadowRecord) :
    Viewport × List REvent :=
  let img :=
    if !tile.animated then
      getImageCacheRecord env tile.style tile.sequence 0 tile.randomIndex
    else
      getImageCacheRecord env tile.style tile.sequence 0 (byteOf env.currentFrame)
  match img with
  | none => (vp, [REvent.missFloor tile.style tile.sequence])
  | some im =>
    let vp1 := vp.pushDelta (env.orthoDelta (-80) tile.yAdjust)
    (vp1.popTranslation,
      [REvent.vPush vp1.top, REvent.sPush vp1.getTranslationScreen,
       REvent.image im, REvent.sPop, REvent.vPop])

/-- Embedding of `MapRenderer.renderWall`: like `renderFloor` with the
wall's shape-type code as cache key and ortho offset `(-80, yAdjust-8)`. -/
def renderWall (env : RenderEnv) (vp : Viewport) (tile : WallRecord) :
    Viewport × List REvent :=
  match getImageCacheRecord env tile.style tile.sequence tile.type.code tile.randomIndex with
  | none => (vp, [REvent.missWall tile.style tile.sequence tile.type.code])
  | some im =>
    let vp1 := vp.pushDelta (env.orthoDelta (-80) (tile.yAdjust - 8))
    (vp1.popTranslation,
      [REvent.vPush vp1.top, REvent.sPush vp1.getTranslationScreen,
       REvent.image im, REvent.sPop, REvent.vPop])

/-- Embedding of `MapRenderer.renderShadow`: cache key 13, ortho offset
`(-80, yAdjust)`; the viewport push happens at the `defer` statement (Go
evaluates the deferred call's receiver immediately), then the surface
receives a translation push and a tint push `RGBA(255,255,255,160)`, and on
exit `PopN(2)` runs before the viewport pop (defers are LIFO). -/
def renderShadow (env : RenderEnv) (vp : Viewport) (tile : FloorShadowRecord) :
    Viewport × List REvent :=
  match getImageCacheRecord env tile.style tile.sequence 13 tile.randomIndex with
  | none => (vp, [REvent.missShadow tile.style tile.sequence])
  | some im =>
    let vp1 := vp.pushDelta (env.orthoDelta (-80) tile.yAdjust)
    (vp1.popTranslation,
      [REvent.vPush vp1.top, REvent.sPush vp1.getTranslationScreen,
       REvent.sPushColor 255 255 255 160, REvent.image im,
       REvent.sPopN 2, REvent.vPop])

/-- Embedding of `MapRenderer.renderTilePass1`: walls that are not hidden,
have `prop1 != 0` and are lower walls; then floors that are not hidden with
`prop1 != 0`; then shadows likewise. -/
def renderTilePass1 (env : RenderEnv) (vp : Viewport) (tile : TileRecord) :
    Viewport × List REvent :=
  let rw := runR (fun vp wall =>
    if !wall.hidden && wall.prop1 != 0 && wall.type.lowerWall then renderWall env vp wall
    else (vp, [])) vp tile.walls
  let rf := runR (fun vp floor =>
    if !floor.hidden && floor.prop1 != 0 then renderFloor env vp floor
    else (vp, [])) rw.1 tile.floors
  let rs := runR (fun vp shadow =>
    if !shadow.hidden && shadow.prop1 != 0 then renderShadow env vp shadow
    else (vp, [])) rf.1 tile.shadows
  (rs.1, rw.2 ++ rf.2 ++ rs.2)

/-- Embedding of `MapRenderer.renderTilePass2`: walls that are not hidden
and are upper walls (no `prop1` requirement). -/
def renderTilePass2 (env : RenderEnv) (vp : Viewport) (tile : TileRecord) :
    Viewport × List REvent :=
  runR (fun vp wall =>
    if !wall.hidden && wall.type.upperWall then renderWall env vp wall
    else (vp, [])) vp tile.walls

/-- Embedding of `MapRenderer.renderTilePass3`: walls whose shape-type
equals `Roof` — the source checks neither `Hidden` nor `Prop1` here. -/
def renderTilePass3 (env : RenderEnv) (vp : Viewport) (tile : TileRecord) :
    Viewport × List REvent :=
  runR (fun vp wall =>
    if wall.type == TileType.roof then renderWall env vp wall
    else (vp, [])) vp tile.walls

/-- The pass-1 loop body for one tile: fetch the tile record, and when the
tile is visible push the world translation, run the per-tile pass-1 draws,
and pop. -/
def pass1TileStep (env : RenderEnv) (tileY : Nat) (vp : Viewport) (tileX : Nat) :
    Viewport × List REvent :=
  let tile := env.tileAt tileX tileY
  if env.visible tileX tileY then
    let vp1 := vp.pushDelta (env.worldDelta tileX tileY)
    let r := renderTilePass1 env vp1 tile
    (r.1.popTranslation, REvent.vPush vp1.top :: (r.2 ++ [REvent.vPop]))
  else (vp, [])

/-- Embedding of `MapRenderer.renderPass1`: row-major sweep (y outer, x
inner) of `pass1TileStep`. -/
def renderPass1 (env : RenderEnv) (vp : Viewport) : Viewport × List REvent :=
  runR (fun vp tileY =>
    runR (pass1TileStep env tileY) vp (List.range env.width))
    vp (List.range env.height)

/-- Embedding of `MapRenderer.renderPass2`: per visible tile, upper walls,
then a scan of every map-engine entity — an entity is drawn when the Go
`int` truncation of each position coordinate equals the tile coordinate,
with the cumulative screen translation pushed on the target around the
entity's self-draw (the skipped case mirrors the source's `continue`). -/
def entityStep (tileX tileY : Nat) (vp : Viewport) (e : MapEntity) :
    Viewport × List REvent :=
  if goTrunc e.posX != (tileX : ℤ) || goTrunc e.posY != (tileY : ℤ) then (vp, [])
  else (vp, [REvent.sPush vp.getTranslationScreen, REvent.entity e, REvent.sPop])

/-- The pass-2 loop body for one tile: when visible, push the world
translation, draw the upper walls, then scan every entity with
`entityStep`, then pop. -/
def pass2TileStep (env : RenderEnv) (tileY : Nat) (vp : Viewport) (tileX : Nat) :
    Viewport × List REvent :=
  let tile := env.tileAt tileX tileY
  if env.visible tileX tileY then
    let vp1 := vp.pushDelta (env.worldDelta tileX tileY)
    let r := renderTilePass2 env vp1 tile
    let re := runR (entityStep tileX tileY) r.1 env.entities
    (re.1.popTranslation, REvent.vPush vp1.top :: (r.2 ++ re.2 ++ [REvent.vPop]))
  else (vp, [])

/-- Embedding of `MapRenderer.renderPass2`: row-major sweep of
`pass2TileStep`. -/
def renderPass2 (env : RenderEnv) (vp : Viewport) : Viewport × List REvent :=
  runR (fun vp tileY =>
    runR (pass2TileStep env tileY) vp (List.range env.width))
    vp (List.range env.height)

/-- The pass-3 loop body for one tile. -/
def pass3TileStep (env : RenderEnv) (tileY : Nat) (vp : Viewport) (tileX : Nat) :
    Viewport × List REvent :=
  let tile := env.tileAt tileX tileY
  if env.visible tileX tileY then
    let vp1 := vp.pushDelta (env.worldDelta tileX tileY)
    let r := renderTilePass3 env vp1 tile
    (r.1.popTranslation, REvent.vPush vp1.top :: (r.2 ++ [REvent.vPop]))
  else (vp, [])

/-- Embedding of `MapRenderer.renderPass3`: the roof sweep of
`pass3TileStep`. -/
def renderPass3 (env : RenderEnv) (vp : Viewport) : Viewport × List REvent :=
  runR (fun vp tileY =>
    runR (pass3TileStep env tileY) vp (List.range env.width))
    vp (List.range env.height)

/-- Embedding of `MapRenderer.renderTileDebug`: tile edges and coordinate
label; at debug level above 1 also the sub-tile grid, labels for special
walls, and markers on non-walkable cells of the 5x5 walk-mesh block with
index `((yy + ay*5) * width*5) + xx + ax*5`.  The function reads the
viewport only through `WorldToScreen`; the surrounding translation push on
the target is popped by the deferred `Pop` at exit. -/
def renderTileDebug (env : RenderEnv) (ax ay : Nat) (debugVisLevel : ℤ) : List REvent :=
  let p1 := env.worldToScreen ax ay
  let p2 := env.worldToScreen (ax + 1) ay
  let p3 := env.worldToScreen ax (ay + 1)
  [REvent.sPush p1,
   REvent.line (p2.1 - p1.1) (p2.2 - p1.2) 255 255 255 100,
   REvent.line (p3.1 - p1.1) (p3.2 - p1.2) 255 255 255 100,
   REvent.sPush (-10, 10), REvent.text "%v, %v" (ax : ℤ) (ay : ℤ), REvent.sPop]
  ++ (if debugVisLevel > 1 then
        (((List.range' 1 4).map (fun i =>
          [REvent.sPush (-(16 * (i : ℤ)), 8 * (i : ℤ)),
           REvent.line 80 40 80 80 255 50, REvent.sPop,
           REvent.sPush (16 * (i : ℤ), 8 * (i : ℤ)),
           REvent.line (-80) 40 80 80 255 50, REvent.sPop])).flatten)
        ++ (((env.tileAt ax ay).walls.enum.map (fun iw =>
          if iw.2.type.isSpecial then
            [REvent.sPush (-20, 10 + ((iw.1 : ℤ) + 1) * 14),
             REvent.text "s: %v-%v" (iw.2.style : ℤ) (iw.2.sequence : ℤ), REvent.sPop]
          else [])).flatten)
        ++ (((List.range 5).map (fun yy =>
          ((List.range 5).map (fun xx =>
            if !(env.walkable (((yy + ay * 5) * env.width * 5) + xx + ax * 5)) then
              [REvent.sPush (((xx : ℤ) - (yy : ℤ)) * 16 - 3, ((xx : ℤ) + (yy : ℤ)) * 8 + 4),
               REvent.rect 5 5 128 0 0 100, REvent.sPop]
            else [])).flatten)).flatten)
      else [])
  ++ [REvent.sPop]

/-- Embedding of `MapRenderer.renderDebug`: the debug sweep, with the same
per-visible-tile world translation push as the render passes. -/
def debugTileStep (env : RenderEnv) (debugVisLevel : ℤ) (tileY : Nat)
    (vp : Viewport) (tileX : Nat) : Viewport × List REvent :=
  if env.visible tileX tileY then
    let vp1 := vp.pushDelta (env.worldDelta tileX tileY)
    (vp1.popTranslation,
      REvent.vPush vp1.top ::
        (renderTileDebug env tileX tileY debugVisLevel ++ [REvent.vPop]))
  else (vp, [])

/-- Embedding of `MapRenderer.renderDebug`: the debug sweep of
`debugTileStep`. -/
def renderDebug (env : RenderEnv) (debugVisLevel : ℤ) (vp : Viewport) :
    Viewport × List REvent :=
  runR (fun vp tileY =>
    runR (debugTileStep env debugVisLevel tileY) vp (List.range env.width))
    vp (List.range env.height)

/-- Embedding of `MapRenderer.Render`: pass 1, the debug sweep when the
debug level is positive, pass 2, pass 3. -/
def Render (env : RenderEnv) (vp : Viewport) : Viewport × List REvent :=
  let r1 := renderPass1 env vp
  let rd := if env.debugVisLevel > 0 then renderDebug env env.debugVisLevel r1.1
            else (r1.1, [])
  let r2 := renderPass2 env rd.1
  let r3 := renderPass3 env r2.1
  (r3.1, r1.2 ++ rd.2 ++ r2.2 ++ r3.2)

/-- Contribution of one event to the target surface's translation/tint
stack depth. -/
def surfDelta : REvent → ℤ
  | REvent.sPush _ => 1
  | REvent.sPushColor _ _ _ _ => 1
  | REvent.sPop => -1
  | REvent.sPopN n => -(n : ℤ)
  | _ => 0

/-- Net change of the target surface's stack depth over a trace. -/
def surfBalance (l : List REvent) : ℤ := (l.map surfDelta).sum

/-- Drop every hidden sub-record of a tile. -/
def TileRecord.removeHidden (t : TileRecord) : TileRecord :=
  ⟨t.walls.filter (fun w => !w.hidden),
   t.floors.filter (fun f => !f.hidden),
   t.shadows.filter (fun s => !s.hidden)⟩

/-- Replace the tile record at one coordinate. -/
def RenderEnv.setTile (env : RenderEnv) (x y : Nat) (t : TileRecord) : RenderEnv :=
  { env with tileAt := fun a b => if a = x ∧ b = y then t else env.tileAt a b }

/-- Replace the image cache. -/
def RenderEnv.withCache (env : RenderEnv) (c : Nat → Nat → Nat → Nat → Option Nat) :
    RenderEnv :=
  { env with cache := c }

/-- The cache key a wall sub-record is drawn from. -/
def wallKey (w : WallRecord) : Nat × Nat × Nat × Nat :=
  (w.style, w.sequence, w.type.code, w.randomIndex)

/-- The cache key a floor sub-record is drawn from (animation frame for
animated floors). -/
def floorKey (env : RenderEnv) (f : FloorShadowRecord) : Nat × Nat × Nat × Nat :=
  (f.style, f.sequence, 0, if !f.animated then f.randomIndex else byteOf env.currentFrame)

/-- The cache key a shadow sub-record is drawn from. -/
def shadowKey (s : FloorShadowRecord) : Nat × Nat × Nat × Nat :=
  (s.style, s.sequence, 13, s.randomIndex)

/-- The empty viewport stack. -/
def emptyVp : Viewport := ⟨[]⟩

/-- A wall sub-record with roof shape-type and the hidden flag set. -/
def hiddenRoofWall : WallRecord := ⟨TileType.roof, true, 0, 0, 0, 0, 0⟩

/-- A 1x1 map whose single tile holds only `hiddenRoofWall`, fully visible,
with every image cached as handle 7 and the debug overlay off. -/
def envC2 : RenderEnv :=
  ⟨1, 1, fun _ _ => ⟨[hiddenRoofWall], [], []⟩, [], fun _ _ _ _ => some 7,
   fun _ _ => true, fun _ _ => (0, 0), fun _ _ => (0, 0), fun _ _ => (0, 0),
   fun _ => true, 0, 0⟩

/-- An entity standing at world position `(-1/2, 1/2)`: the Go `int`
truncation of both coordinates is `0`, but the floor of the x coordinate
is `-1`. -/
def entNeg : MapEntity := ⟨0, ⟨-1, 2⟩, ⟨1, 2⟩⟩

/-- A 1x1 map with an empty tile and the single entity `entNeg`. -/
def envC6 : RenderEnv :=
  ⟨1, 1, fun _ _ => ⟨[], [], []⟩, [entNeg], fun _ _ _ _ => none,
   fun _ _ => true, fun _ _ => (0, 0), fun _ _ => (0, 0), fun _ _ => (0, 0),
   fun _ => true, 0, 0⟩

/-- A 1x1 map whose only tile is invisible. -/
def envC7 : RenderEnv :=
  ⟨1, 1, fun _ _ => ⟨[], [], []⟩, [], fun _ _ _ _ => none,
   fun _ _ => false, fun _ _ => (0, 0), fun _ _ => (0, 0), fun _ _ => (0, 0),
   fun _ => true, 0, 0⟩

/-- A replacement tile holding one visible roof wall. -/
def tileC7 : TileRecord := ⟨[⟨TileType.roof, false, 1, 0, 0, 0, 0⟩], [], []⟩

/-- The cache key `(style 0, sequence 0, code 1, frame 0)`. -/
def keyC8 : Nat × Nat × Nat × Nat := (0, 0, 1, 0)

/-- A cache that misses exactly at `keyC8` and otherwise yields handle 5. -/
def cacheMissC8 : Nat → Nat → Nat → Nat → Option Nat :=
  fun s q ty fr => if (s, q, ty, fr) = keyC8 then none else some 5

/-- A cache that always yields handle 5. -/
def cacheHitC8 : Nat → Nat → Nat → Nat → Option Nat := fun _ _ _ _ => some 5

/-- A 1x1 visible map using `cacheMissC8`. -/
def envC8 : RenderEnv :=
  ⟨1, 1, fun _ _ => ⟨[], [], []⟩, [], cacheMissC8,
   fun _ _ => true, fun _ _ => (0, 0), fun _ _ => (0, 0), fun _ _ => (0, 0),
   fun _ => true, 0, 0⟩

/-- A lower wall whose cache key `(0,0,1,1)` differs from `keyC8`. -/
def wallC8 : WallRecord := ⟨TileType.lower, false, 1, 0, 0, 1, 0⟩

/-- A lower wall whose cache key is exactly `keyC8`. -/
def wallC8miss : WallRecord := ⟨TileType.lower, false, 1, 0, 0, 0, 0⟩

/-- The shadow cache key `(style 0, sequence 0, code 13, frame 0)`. -/
def keyShadowC8 : Nat × Nat × Nat × Nat := (0, 0, 13, 0)

/-- A cache that misses exactly at `keyShadowC8` and otherwise yields
handle 5. -/
def cacheMissShadowC8 : Nat → Nat → Nat → Nat → Option Nat :=
  fun s q ty fr => if (s, q, ty, fr) = keyShadowC8 then none else some 5

/-- A 1x1 visible map using `cacheMissShadowC8`. -/
def envC8s : RenderEnv :=
  ⟨1, 1, fun _ _ => ⟨[], [], []⟩, [], cacheMissShadowC8,
   fun _ _ => true, fun _ _ => (0, 0), fun _ _ => (0, 0), fun _ _ => (0, 0),
   fun _ => true, 0, 0⟩

/-- A shadow sub-record whose cache key is exactly `keyShadowC8`. -/
def shadowC8miss : FloorShadowRecord := ⟨false, 1, false, 0, 0, 0, 0⟩

/-- The float64 value `0.25` (exactly representable). -/
def quarter : Frac := ⟨1, 4⟩

/-- The float64 value `0.5` (exactly representable). -/
def half : Frac := ⟨1, 2⟩

/-- The float64 value `8780753229072219` (an integer below `2 ^ 53`, hence
exactly representable). -/
def bigDelta : Frac := ⟨8780753229072219, 1⟩

theorem pushDelta_popTranslation (vp : Viewport) (d : ℤ × ℤ) :
    (vp.pushDelta d).popTranslation = vp := rfl

theorem renderWall_fst (env : RenderEnv) (vp : Viewport) (w : WallRecord) :
    (renderWall env vp w).1 = vp := by
  unfold renderWall
  cases getImageCacheRecord env w.style w.sequence w.type.code w.randomIndex <;> rfl

theorem renderFloor_fst (env : RenderEnv) (vp : Viewport) (tile : FloorShadowRecord) :
    (renderFloor env vp tile).1 = vp := by
  unfold renderFloor
  cases (if !tile.animated then
      getImageCacheRecord env tile.style tile.sequence 0 tile.randomIndex
    else
      getImageCacheRecord env tile.style tile.sequence 0 (byteOf env.currentFrame)) <;> rfl

theorem renderShadow_fst (env : RenderEnv) (vp : Viewport) (tile : FloorShadowRecord) :
    (renderShadow env vp tile).1 = vp := by
  unfold renderShadow
  cases getImageCacheRecord env tile.style tile.sequence 13 tile.randomIndex <;> rfl

theorem runR_fst {α : Type} (f : Viewport → α → Viewport × List REvent)
    (hf : ∀ vp a, (f vp a).1 = vp) (vp : Viewport) (l : List α) :
    (runR f vp l).1 = vp := by
  induction l generalizing vp with
  | nil => rfl
  | cons a as ih => simp [runR, ih, hf]

theorem runR_snd {α : Type} (f : Viewport → α → Viewport × List REvent)
    (hf : ∀ vp a, (f vp a).1 = vp) (vp : Viewport) (l : List α) :
    (runR f vp l).2 = (l.map (fun a => (f vp a).2)).flatten := by
  induction l generalizing vp with
  | nil => rfl
  | cons a as ih => simp [runR, hf, ih]

theorem runR_congr {α : Type} {f g : Viewport → α → Viewport × List REvent}
    (vp : Viewport) (l : List α) (h : ∀ vp' a, a ∈ l → f vp' a = g vp' a) :
    runR f vp l = runR g vp l := by
  induction l generalizing vp with
  | nil => rfl
  | cons a as ih =>
    have h1 : f vp a = g vp a := h vp a (List.mem_cons_self a as)
    simp only [runR, h1, ih _ (fun vp' b hb => h vp' b (List.mem_cons_of_mem a hb))]

theorem mem_runR {α : Type} {f : Viewport → α → Viewport × List REvent} {ev : REvent}
    {vp : Viewport} {l : List α} (h : ev ∈ (runR f vp l).2) :
    ∃ a ∈ l, ∃ vp', ev ∈ (f vp' a).2 := by
  induction l generalizing vp with
  | nil => simp [runR] at h
  | cons a as ih =>
    simp only [runR, List.mem_append] at h
    rcases h with h | h
    · exact ⟨a, by simp, vp, h⟩
    · obtain ⟨b, hb, vp', hv⟩ := ih h
      exact ⟨b, by simp [hb], vp', hv⟩

theorem surfBalance_append (l1 l2 : List REvent) :
    surfBalance (l1 ++ l2) = surfBalance l1 + surfBalance l2 := by
  simp [surfBalance]

theorem surfBalance_flatten_map {α : Type} (l : List α) (g : α → List REvent)
    (h : ∀ a ∈ l, surfBalance (g a) = 0) :
    surfBalance ((l.map g).flatten) = 0 := by
  induction l with
  | nil => rfl
  | cons a as ih =>
    simp only [List.map_cons, List.flatten_cons, surfBalance_append]
    rw [h a (List.mem_cons_self a as), ih (fun b hb => h b (List.mem_cons_of_mem a hb))]
    rfl

theorem runR_balance {α : Type} (f : Viewport → α → Viewport × List REvent)
    (h : ∀ vp a, surfBalance (f vp a).2 = 0) (vp : Viewport) (l : List α) :
    surfBalance (runR f vp l).2 = 0 := by
  induction l generalizing vp with
  | nil => rfl
  | cons a as ih => simp [runR, surfBalance_append, h, ih]

theorem renderWall_balance (env : RenderEnv) (vp : Viewport) (w : WallRecord) :
    surfBalance (renderWall env vp w).2 = 0 := by
  unfold renderWall
  cases getImageCacheRecord env w.style w.sequence w.type.code w.randomIndex <;>
    simp [surfBalance, surfDelta]

theorem renderFloor_balance (env : RenderEnv) (vp : Viewport) (tile : FloorShadowRecord) :
    surfBalance (renderFloor env vp tile).2 = 0 := by
  unfold renderFloor
  cases (if !tile.animated then
      getImageCacheRecord env tile.style tile.sequence 0 tile.randomIndex
    else
      getImageCacheRecord env tile.style tile.sequence 0 (byteOf env.currentFrame)) <;>
    simp [surfBalance, surfDelta]

theorem renderShadow_balance (env : RenderEnv) (vp : Viewport) (tile : FloorShadowRecord) :
    surfBalance (renderShadow env vp tile).2 = 0 := by
  unfold renderShadow
  cases getImageCacheRecord env tile.style tile.sequence 13 tile.randomIndex <;>
    simp [surfBalance, surfDelta]

theorem surfBalance_cons (e : REvent) (l : List REvent) :
    surfBalance (e :: l) = surfDelta e + surfBalance l := by
  simp [surfBalance]

theorem renderTilePass1_fst (env : RenderEnv) (vp : Viewport) (tile : TileRecord) :
    (renderTilePass1 env vp tile).1 = vp := by
  simp only [renderTilePass1]
  rw [runR_fst _ (fun vp a => by split <;> simp [renderShadow_fst]),
      runR_fst _ (fun vp a => by split <;> simp [renderFloor_fst]),
      runR_fst _ (fun vp a => by split <;> simp [renderWall_fst])]

theorem renderTilePass2_fst (env : RenderEnv) (vp : Viewport) (tile : TileRecord) :
    (renderTilePass2 env vp tile).1 = vp := by
  simp only [renderTilePass2]
  rw [runR_fst _ (fun vp a => by split <;> simp [renderWall_fst])]

theorem renderTilePass3_fst (env : RenderEnv) (vp : Viewport) (tile : TileRecord) :
    (renderTilePass3 env vp tile).1 = vp := by
  simp only [renderTilePass3]
  rw [runR_fst _ (fun vp a => by split <;> simp [renderWall_fst])]

theorem pass1TileStep_fst (env : RenderEnv) (y : Nat) (vp : Viewport) (x : Nat) :
    (pass1TileStep env y vp x).1 = vp := by
  unfold pass1TileStep
  dsimp only
  split
  · simp [renderTilePass1_fst, pushDelta_popTranslation]
  · rfl

theorem renderPass1_fst (env : RenderEnv) (vp : Viewport) :
    (renderPass1 env vp).1 = vp := by
  unfold renderPass1
  apply runR_fst
  intro vp y
  exact runR_fst _ (pass1TileStep_fst env y) vp _

theorem entityStep_fst (x y : Nat) (vp : Viewport) (e : MapEntity) :
    (entityStep x y vp e).1 = vp := by
  unfold entityStep
  split <;> rfl

theorem pass2TileStep_fst (env : RenderEnv) (y : Nat) (vp : Viewport) (x : Nat) :
    (pass2TileStep env y vp x).1 = vp := by
  unfold pass2TileStep
  dsimp only
  split
  · rw [runR_fst _ (entityStep_fst _ _)]
    simp [renderTilePass2_fst, pushDelta_popTranslation]
  · rfl

theorem renderPass2_fst (env : RenderEnv) (vp : Viewport) :
    (renderPass2 env vp).1 = vp := by
  unfold renderPass2
  apply runR_fst
  intro vp y
  exact runR_fst _ (pass2TileStep_fst env y) vp _

theorem pass3TileStep_fst (env : RenderEnv) (y : Nat) (vp : Viewport) (x : Nat) :
    (pass3TileStep env y vp x).1 = vp := by
  unfold pass3TileStep
  dsimp only
  split
  · simp [renderTilePass3_fst, pushDelta_popTranslation]
  · rfl

theorem renderPass3_fst (env : RenderEnv) (vp : Viewport) :
    (renderPass3 env vp).1 = vp := by
  unfold renderPass3
  apply runR_fst
  intro vp y
  exact runR_fst _ (pass3TileStep_fst env y) vp _

theorem debugTileStep_fst (env : RenderEnv) (lvl : ℤ) (y : Nat) (vp : Viewport) (x : Nat) :
    (debugTileStep env lvl y vp x).1 = vp := by
  unfold debugTileStep
  split
  · simp [pushDelta_popTranslation]
  · rfl

theorem renderDebug_fst (env : RenderEnv) (lvl : ℤ) (vp : Viewport) :
    (renderDebug env lvl vp).1 = vp := by
  unfold renderDebug
  apply runR_fst
  intro vp y
  exact runR_fst _ (debugTileStep_fst env lvl y) vp _

theorem Render_fst (env : RenderEnv) (vp : Viewport) : (Render env vp).1 = vp := by
  unfold Render
  dsimp only
  rw [renderPass3_fst, renderPass2_fst]
  split
  · rw [renderDebug_fst, renderPass1_fst]
  · simp [renderPass1_fst]

theorem renderTilePass1_balance (env : RenderEnv) (vp : Viewport) (tile : TileRecord) :
    surfBalance (renderTilePass1 env vp tile).2 = 0 := by
  simp only [renderTilePass1, surfBalance_append]
  rw [runR_balance _ (fun vp a => by split <;> first | apply renderWall_balance | rfl),
      runR_balance _ (fun vp a => by split <;> first | apply renderFloor_balance | rfl),
      runR_balance _ (fun vp a => by split <;> first | apply renderShadow_balance | rfl)]
  rfl

theorem renderTilePass2_balance (env : RenderEnv) (vp : Viewport) (tile : TileRecord) :
    surfBalance (renderTilePass2 env vp tile).2 = 0 := by
  simp only [renderTilePass2]
  rw [runR_balance _ (fun vp a => by split <;> first | apply renderWall_balance | rfl)]

theorem renderTilePass3_balance (env : RenderEnv) (vp : Viewport) (tile : TileRecord) :
    surfBalance (renderTilePass3 env vp tile).2 = 0 := by
  simp only [renderTilePass3]
  rw [runR_balance _ (fun vp a => by split <;> first | apply renderWall_balance | rfl)]

theorem renderTileDebug_balance (env : RenderEnv) (ax ay : Nat) (lvl : ℤ) :
    surfBalance (renderTileDebug env ax ay lvl) = 0 := by
  unfold renderTileDebug
  dsimp only
  simp only [surfBalance_append, surfBalance_cons]
  split
  · simp only [surfBalance_append]
    rw [surfBalance_flatten_map _ _ (fun i _ => by simp [surfBalance, surfDelta]),
        surfBalance_flatten_map _ _ (fun iw _ => by split <;> simp [surfBalance, surfDelta]),
        surfBalance_flatten_map _ _ (fun yy _ =>
          surfBalance_flatten_map _ _ (fun xx _ => by split <;> simp [surfBalance, surfDelta]))]
    simp [surfBalance, surfDelta]
  · simp [surfBalance, surfDelta]

theorem pass1TileStep_balance (env : RenderEnv) (y : Nat) (vp : Viewport) (x : Nat) :
    surfBalance (pass1TileStep env y vp x).2 = 0 := by
  unfold pass1TileStep
  dsimp only
  split
  · rw [surfBalance_cons, surfBalance_append, renderTilePass1_balance]
    rfl
  · rfl

theorem renderPass1_balance (env : RenderEnv) (vp : Viewport) :
    surfBalance (renderPass1 env vp).2 = 0 := by
  unfold renderPass1
  apply runR_balance
  intro vp y
  exact runR_balance _ (pass1TileStep_balance env y) vp _

theorem entityStep_balance (x y : Nat) (vp : Viewport) (e : MapEntity) :
    surfBalance (entityStep x y vp e).2 = 0 := by
  unfold entityStep
  split <;> simp [surfBalance, surfDelta]

theorem pass2TileStep_balance (env : RenderEnv) (y : Nat) (vp : Viewport) (x : Nat) :
    surfBalance (pass2TileStep env y vp x).2 = 0 := by
  unfold pass2TileStep
  dsimp only
  split
  · rw [surfBalance_cons, surfBalance_append, surfBalance_append]
    rw [renderTilePass2_balance, runR_balance _ (entityStep_balance _ _)]
    rfl
  · rfl

theorem renderPass2_balance (env : RenderEnv) (vp : Viewport) :
    surfBalance (renderPass2 env vp).2 = 0 := by
  unfold renderPass2
  apply runR_balance
  intro vp y
  exact runR_balance _ (pass2TileStep_balance env y) vp _

theorem pass3TileStep_balance (env : RenderEnv) (y : Nat) (vp : Viewport) (x : Nat) :
    surfBalance (pass3TileStep env y vp x).2 = 0 := by
  unfold pass3TileStep
  dsimp only
  split
  · rw [surfBalance_cons, surfBalance_append, renderTilePass3_balance]
    rfl
  · rfl

theorem renderPass3_balance (env : RenderEnv) (vp : Viewport) :
    surfBalance (renderPass3 env vp).2 = 0 := by
  unfold renderPass3
  apply runR_balance
  intro vp y
  exact runR_balance _ (pass3TileStep_balance env y) vp _

theorem debugTileStep_balance (env : RenderEnv) (lvl : ℤ) (y : Nat) (vp : Viewport) (x : Nat) :
    surfBalance (debugTileStep env lvl y vp x).2 = 0 := by
  unfold debugTileStep
  split
  · rw [surfBalance_cons, surfBalance_append, renderTileDebug_balance]
    rfl
  · rfl

theorem renderDebug_balance (env : RenderEnv) (lvl : ℤ) (vp : Viewport) :
    surfBalance (renderDebug env lvl vp).2 = 0 := by
  unfold renderDebug
  apply runR_balance
  intro vp y
  exact runR_balance _ (debugTileStep_balance env lvl y) vp _

/-- Claim C1: for every call to `Render`, the viewport translation stack has
the same depth when `Render` returns as when it was entered — every
`PushTranslationWorld`/`PushTranslationOrtho` issued in the three passes,
the debug pass and the per-sub-record helpers is matched by exactly one
`PopTranslation` on every path, including the early returns on image-cache
misses.  The proof shows the final viewport state equals the initial one. -/
theorem claim1_viewport_stack_balanced (env : RenderEnv) (vp : Viewport) :
    ((Render env vp).1).stack.length = vp.stack.length := by
  rw [Render_fst]

/-- Claim C10: the surface pushes and pops issued during one `Render` call
are balanced — each `PushTranslation` matches one `Pop`, and the shadow
draw's translation-plus-tint pair matches its `PopN(2)` — so the target
surface's stack depth on exit equals its depth on entry, on every path,
including the early returns on cache misses. -/
theorem claim10_surface_balanced (env : RenderEnv) (vp : Viewport) :
    surfBalance (Render env vp).2 = 0 := by
  unfold Render
  dsimp only
  split
  · simp only [surfBalance_append]
    rw [renderPass1_balance, renderPass2_balance, renderPass3_balance, renderDebug_balance]
    rfl
  · simp only [surfBalance_append]
    rw [renderPass1_balance, renderPass2_balance, renderPass3_balance]
    rfl

theorem runR_filter {α : Type} (f : Viewport → α → Viewport × List REvent) (p : α → Bool)
    (h : ∀ vp a, p a = false → f vp a = (vp, [])) (vp : Viewport) (l : List α) :
    runR f vp (l.filter p) = runR f vp l := by
  induction l generalizing vp with
  | nil => rfl
  | cons a as ih =>
    by_cases hp : p a = true
    · simp only [List.filter_cons, hp, if_true, runR]
      rw [ih]
    · have hp' : p a = false := by simpa using hp
      simp only [List.filter_cons, hp', Bool.false_eq_true, if_false]
      rw [ih]
      simp [runR, h vp a hp']

theorem runR_if_filter_snd {α : Type} (p : α → Bool) (r : Viewport → α → Viewport × List REvent)
    (hr : ∀ vp a, (r vp a).1 = vp) (vp : Viewport) (l : List α) :
    (runR (fun vp a => if p a then r vp a else (vp, [])) vp l).2
      = ((l.filter p).map (fun a => (r vp a).2)).flatten := by
  induction l generalizing vp with
  | nil => rfl
  | cons a as ih =>
    by_cases hp : p a = true
    · simp [runR, hp, List.filter_cons, ih, hr]
    · have hp' : p a = false := by simpa using hp
      simp [runR, hp', List.filter_cons, ih]

theorem entityStep_snd_filter (x y : Nat) (vp : Viewport) (l : List MapEntity) :
    (runR (entityStep x y) vp l).2 =
      ((l.filter (fun e => goTrunc e.posX == (x : ℤ) && goTrunc e.posY == (y : ℤ))).map
        (fun e => [REvent.sPush vp.getTranslationScreen, REvent.entity e, REvent.sPop])).flatten := by
  induction l generalizing vp with
  | nil => rfl
  | cons e es ih =>
    cases hpx : (goTrunc e.posX == (x : ℤ)) <;>
      cases hpy : (goTrunc e.posY == (y : ℤ)) <;>
      simp [entityStep, runR, List.filter_cons, hpx, hpy, ih, bne]

/-- Claim C2, counterexample: in `envC2` the only sub-record of the only
tile is a wall with roof shape-type and the hidden flag set, yet `Render`
draws it (image handle 7 appears in the trace): `renderTilePass3` tests
only `wall.Type == Roof` and never reads the hidden flag. -/
theorem claim2_counterexample :
    hiddenRoofWall.hidden = true ∧ hiddenRoofWall.type = TileType.roof
    ∧ envC2.tileAt 0 0 = ⟨[hiddenRoofWall], [], []⟩
    ∧ REvent.image 7 ∈ (Render envC2 emptyVp).2 := by decide

/-- Claim C2, amended: hidden sub-records are never drawn in pass 1 and in
pass 2 — removing every hidden sub-record from a tile leaves both traces
unchanged; pass 3, however, draws roof walls regardless of the hidden flag
(see the counterexample). -/
theorem claim2_amended (env : RenderEnv) (vp : Viewport) (tile : TileRecord) :
    renderTilePass1 env vp tile.removeHidden = renderTilePass1 env vp tile
    ∧ renderTilePass2 env vp tile.removeHidden = renderTilePass2 env vp tile := by
  constructor
  · simp only [renderTilePass1, TileRecord.removeHidden]
    rw [runR_filter _ _ (fun vp a ha => by simp [ha]),
        runR_filter _ _ (fun vp a ha => by simp [ha]),
        runR_filter _ _ (fun vp a ha => by simp [ha])]
  · simp only [renderTilePass2, TileRecord.removeHidden]
    rw [runR_filter _ _ (fun vp a ha => by simp [ha])]

/-- Claim C5: in pass 1, for each tile, exactly the non-hidden lower walls
with nonzero `prop1` are drawn, then exactly the non-hidden floors with
nonzero `prop1`, then exactly the qualifying shadows, each list in stored
order; and the pass trace is the row-major sweep (y outer, x inner) of the
per-tile segments, each visible tile wrapped in its world translation
push/pop and invisible tiles contributing nothing. -/
theorem claim5_pass1_order (env : RenderEnv) (vp : Viewport) :
    (∀ tile : TileRecord,
      (renderTilePass1 env vp tile).2 =
        ((tile.walls.filter (fun wall =>
              !wall.hidden && wall.prop1 != 0 && wall.type.lowerWall)).map
            (fun wall => (renderWall env vp wall).2)).flatten
        ++ ((tile.floors.filter (fun floor => !floor.hidden && floor.prop1 != 0)).map
            (fun floor => (renderFloor env vp floor).2)).flatten
        ++ ((tile.shadows.filter (fun shadow => !shadow.hidden && shadow.prop1 != 0)).map
            (fun shadow => (renderShadow env vp shadow).2)).flatten)
    ∧ (renderPass1 env vp).2 =
        ((List.range env.height).map (fun tileY =>
          ((List.range env.width).map (fun tileX =>
            (pass1TileStep env tileY vp tileX).2)).flatten)).flatten
    ∧ (∀ x y : Nat, (pass1TileStep env y vp x).2 =
        if env.visible x y then
          REvent.vPush ((vp.pushDelta (env.worldDelta x y)).top) ::
            ((renderTilePass1 env (vp.pushDelta (env.worldDelta x y)) (env.tileAt x y)).2
             ++ [REvent.vPop])
        else []) := by
  refine ⟨?_, ?_, ?_⟩
  · intro tile
    simp only [renderTilePass1]
    rw [runR_fst _ (fun vp a => by split <;> simp [renderWall_fst]),
        runR_fst _ (fun vp a => by split <;> simp [renderFloor_fst])]
    rw [runR_if_filter_snd _ _ (fun vp a => renderWall_fst env vp a),
        runR_if_filter_snd _ _ (fun vp a => renderFloor_fst env vp a),
        runR_if_filter_snd _ _ (fun vp a => renderShadow_fst env vp a)]
  · unfold renderPass1
    rw [runR_snd _ (fun vp y => runR_fst _ (pass1TileStep_fst env y) vp _)]
    refine congrArg List.flatten (List.map_congr_left ?_)
    intro y _
    exact runR_snd _ (pass1TileStep_fst env y) vp _
  · intro x y
    simp only [pass1TileStep]
    split <;> rfl

/-- Claim C6, counterexample: the entity of `envC6` stands at world
position `(-1/2, 1/2)`; its floor on the x axis is `-1`, no tile of the
1x1 map, yet `Render` draws it at tile `(0, 0)` because the source gates
entities by Go `int` truncation toward zero, not by the floor. -/
theorem claim6_counterexample :
    REvent.entity entNeg ∈ (Render envC6 emptyVp).2
    ∧ envC6.width = 1 ∧ envC6.height = 1
    ∧ Frac.floor entNeg.posX ≠ (0 : ℤ) := by decide

/-- Claim C6, amended: in pass 2, for each visible tile, every non-hidden
upper wall is drawn (`prop1` not required), then an entity is rendered
exactly when the truncation toward zero (Go `int` conversion, not the
floor) of each position coordinate equals the tile coordinate, in stored
entity order, with the tile's cumulative screen translation pushed around
the self-draw. -/
theorem claim6_amended (env : RenderEnv) (vp : Viewport) :
    (∀ tile : TileRecord,
      (renderTilePass2 env vp tile).2 =
        ((tile.walls.filter (fun wall => !wall.hidden && wall.type.upperWall)).map
          (fun wall => (renderWall env vp wall).2)).flatten)
    ∧ (renderPass2 env vp).2 =
        ((List.range env.height).map (fun tileY =>
          ((List.range env.width).map (fun tileX =>
            (pass2TileStep env tileY vp tileX).2)).flatten)).flatten
    ∧ (∀ x y : Nat, (pass2TileStep env y vp x).2 =
        if env.visible x y then
          REvent.vPush ((vp.pushDelta (env.worldDelta x y)).top) ::
            ((renderTilePass2 env (vp.pushDelta (env.worldDelta x y)) (env.tileAt x y)).2
             ++ ((env.entities.filter (fun e =>
                    goTrunc e.posX == (x : ℤ) && goTrunc e.posY == (y : ℤ))).map
                  (fun e =>
                    [REvent.sPush ((vp.pushDelta (env.worldDelta x y)).getTranslationScreen),
                     REvent.entity e, REvent.sPop])).flatten
             ++ [REvent.vPop])
        else []) := by
  refine ⟨?_, ?_, ?_⟩
  · intro tile
    simp only [renderTilePass2]
    rw [runR_if_filter_snd _ _ (fun vp a => renderWall_fst env vp a)]
  · unfold renderPass2
    rw [runR_snd _ (fun vp y => runR_fst _ (pass2TileStep_fst env y) vp _)]
    refine congrArg List.flatten (List.map_congr_left ?_)
    intro y _
    exact runR_snd _ (pass2TileStep_fst env y) vp _
  · intro x y
    by_cases hv : env.visible x y = true
    · simp only [pass2TileStep, hv, if_true]
      rw [renderTilePass2_fst, entityStep_snd_filter]
    · have hv' : env.visible x y = false := by simpa using hv
      simp [pass2TileStep, hv']

theorem setTile_tileAt_vis (env : RenderEnv) (x y : Nat) (t : TileRecord)
    (h : env.visible x y = false) {a b : Nat} (hv : env.visible a b = true) :
    (env.setTile x y t).tileAt a b = env.tileAt a b := by
  unfold RenderEnv.setTile
  dsimp only
  rw [if_neg]
  rintro ⟨rfl, rfl⟩
  rw [hv] at h
  exact Bool.true_eq_false.mp h

theorem pass1TileStep_setTile (env : RenderEnv) (x y : Nat) (t : TileRecord)
    (h : env.visible x y = false) (tY : Nat) (vp : Viewport) (tX : Nat) :
    pass1TileStep (env.setTile x y t) tY vp tX = pass1TileStep env tY vp tX := by
  unfold pass1TileStep
  by_cases hv : env.visible tX tY = true
  · rw [setTile_tileAt_vis env x y t h hv]
    rfl
  · have hv' : env.visible tX tY = false := by simpa using hv
    show (if (env.setTile x y t).visible tX tY = true then _ else (vp, [])) =
      (if env.visible tX tY = true then _ else (vp, []))
    have hsv : (env.setTile x y t).visible tX tY = env.visible tX tY := rfl
    rw [hsv, hv']
    simp

theorem pass2TileStep_setTile (env : RenderEnv) (x y : Nat) (t : TileRecord)
    (h : env.visible x y = false) (tY : Nat) (vp : Viewport) (tX : Nat) :
    pass2TileStep (env.setTile x y t) tY vp tX = pass2TileStep env tY vp tX := by
  unfold pass2TileStep
  by_cases hv : env.visible tX tY = true
  · rw [setTile_tileAt_vis env x y t h hv]
    rfl
  · have hv' : env.visible tX tY = false := by simpa using hv
    show (if (env.setTile x y t).visible tX tY = true then _ else (vp, [])) =
      (if env.visible tX tY = true then _ else (vp, []))
    have hsv : (env.setTile x y t).visible tX tY = env.visible tX tY := rfl
    rw [hsv, hv']
    simp

theorem pass3TileStep_setTile (env : RenderEnv) (x y : Nat) (t : TileRecord)
    (h : env.visible x y = false) (tY : Nat) (vp : Viewport) (tX : Nat) :
    pass3TileStep (env.setTile x y t) tY vp tX = pass3TileStep env tY vp tX := by
  unfold pass3TileStep
  by_cases hv : env.visible tX tY = true
  · rw [setTile_tileAt_vis env x y t h hv]
    rfl
  · have hv' : env.visible tX tY = false := by simpa using hv
    show (if (env.setTile x y t).visible tX tY = true then _ else (vp, [])) =
      (if env.visible tX tY = true then _ else (vp, []))
    have hsv : (env.setTile x y t).visible tX tY = env.visible tX tY := rfl
    rw [hsv, hv']
    simp

theorem renderTileDebug_setTile (env : RenderEnv) (x y : Nat) (t : TileRecord)
    (h : env.visible x y = false) {a b : Nat} (hv : env.visible a b = true) (lvl : ℤ) :
    renderTileDebug (env.setTile x y t) a b lvl = renderTileDebug env a b lvl := by
  unfold renderTileDebug
  rw [setTile_tileAt_vis env x y t h hv]
  rfl

theorem debugTileStep_setTile (env : RenderEnv) (x y : Nat) (t : TileRecord)
    (h : env.visible x y = false) (lvl : ℤ) (tY : Nat) (vp : Viewport) (tX : Nat) :
    debugTileStep (env.setTile x y t) lvl tY vp tX = debugTileStep env lvl tY vp tX := by
  unfold debugTileStep
  by_cases hv : env.visible tX tY = true
  · rw [renderTileDebug_setTile env x y t h hv lvl]
    rfl
  · have hv' : env.visible tX tY = false := by simpa using hv
    show (if (env.setTile x y t).visible tX tY = true then _ else (vp, [])) =
      (if env.visible tX tY = true then _ else (vp, []))
    have hsv : (env.setTile x y t).visible tX tY = env.visible tX tY := rfl
    rw [hsv, hv']
    simp

theorem Render_setTile_invisible (env : RenderEnv) (x y : Nat) (t : TileRecord)
    (h : env.visible x y = false) (vp : Viewport) :
    Render (env.setTile x y t) vp = Render env vp := by
  have hw : (env.setTile x y t).width = env.width := rfl
  have hh : (env.setTile x y t).height = env.height := rfl
  have h1 : ∀ vp, renderPass1 (env.setTile x y t) vp = renderPass1 env vp := by
    intro vp
    unfold renderPass1
    rw [hw, hh]
    exact runR_congr vp _ (fun vp1 tY _ =>
      runR_congr vp1 _ (fun vp2 tX _ => pass1TileStep_setTile env x y t h tY vp2 tX))
  have h2 : ∀ vp, renderPass2 (env.setTile x y t) vp = renderPass2 env vp := by
    intro vp
    unfold renderPass2
    rw [hw, hh]
    exact runR_congr vp _ (fun vp1 tY _ =>
      runR_congr vp1 _ (fun vp2 tX _ => pass2TileStep_setTile env x y t h tY vp2 tX))
  have h3 : ∀ vp, renderPass3 (env.setTile x y t) vp = renderPass3 env vp := by
    intro vp
    unfold renderPass3
    rw [hw, hh]
    exact runR_congr vp _ (fun vp1 tY _ =>
      runR_congr vp1 _ (fun vp2 tX _ => pass3TileStep_setTile env x y t h tY vp2 tX))
  have hd : ∀ lvl vp, renderDebug (env.setTile x y t) lvl vp = renderDebug env lvl vp := by
    intro lvl vp
    unfold renderDebug
    rw [hw, hh]
    exact runR_congr vp _ (fun vp1 tY _ =>
      runR_congr vp1 _ (fun vp2 tX _ => debugTileStep_setTile env x y t h lvl tY vp2 tX))
  have hl : (env.setTile x y t).debugVisLevel = env.debugVisLevel := rfl
  unfold Render
  simp only [hl, h1, h2, h3, hd]

theorem runR_no_entity {α : Type} (f : Viewport → α → Viewport × List REvent) (e : MapEntity)
    (h : ∀ vp a, REvent.entity e ∉ (f vp a).2) (vp : Viewport) (l : List α) :
    REvent.entity e ∉ (runR f vp l).2 := by
  intro hm
  obtain ⟨a, _, vp', hmem⟩ := mem_runR hm
  exact h vp' a hmem

theorem renderWall_no_entity (env : RenderEnv) (vp : Viewport) (w : WallRecord)
    (e : MapEntity) : REvent.entity e ∉ (renderWall env vp w).2 := by
  unfold renderWall
  cases getImageCacheRecord env w.style w.sequence w.type.code w.randomIndex <;> simp

theorem renderFloor_no_entity (env : RenderEnv) (vp : Viewport) (f : FloorShadowRecord)
    (e : MapEntity) : REvent.entity e ∉ (renderFloor env vp f).2 := by
  unfold renderFloor
  cases (if !f.animated then
      getImageCacheRecord env f.style f.sequence 0 f.randomIndex
    else
      getImageCacheRecord env f.style f.sequence 0 (byteOf env.currentFrame)) <;> simp

theorem renderShadow_no_entity (env : RenderEnv) (vp : Viewport) (f : FloorShadowRecord)
    (e : MapEntity) : REvent.entity e ∉ (renderShadow env vp f).2 := by
  unfold renderShadow
  cases getImageCacheRecord env f.style f.sequence 13 f.randomIndex <;> simp

theorem renderTilePass1_no_entity (env : RenderEnv) (vp : Viewport) (tile : TileRecord)
    (e : MapEntity) : REvent.entity e ∉ (renderTilePass1 env vp tile).2 := by
  simp only [renderTilePass1]
  intro hm
  rcases List.mem_append.mp hm with hm' | h3
  · rcases List.mem_append.mp hm' with h1 | h2
    · exact runR_no_entity _ e
        (fun vp a => by split <;> first | apply renderWall_no_entity | simp) _ _ h1
    · exact runR_no_entity _ e
        (fun vp a => by split <;> first | apply renderFloor_no_entity | simp) _ _ h2
  · exact runR_no_entity _ e
      (fun vp a => by split <;> first | apply renderShadow_no_entity | simp) _ _ h3

theorem renderTilePass2_no_entity (env : RenderEnv) (vp : Viewport) (tile : TileRecord)
    (e : MapEntity) : REvent.entity e ∉ (renderTilePass2 env vp tile).2 := by
  simp only [renderTilePass2]
  exact runR_no_entity _ e
    (fun vp a => by split <;> first | apply renderWall_no_entity | simp) _ _

theorem renderTilePass3_no_entity (env : RenderEnv) (vp : Viewport) (tile : TileRecord)
    (e : MapEntity) : REvent.entity e ∉ (renderTilePass3 env vp tile).2 := by
  simp only [renderTilePass3]
  exact runR_no_entity _ e
    (fun vp a => by split <;> first | apply renderWall_no_entity | simp) _ _

theorem renderTileDebug_no_entity (env : RenderEnv) (ax ay : Nat) (lvl : ℤ)
    (e : MapEntity) : REvent.entity e ∉ renderTileDebug env ax ay lvl := by
  intro hm
  unfold renderTileDebug at hm
  rcases List.mem_append.mp hm with hm1 | hm2
  · rcases List.mem_append.mp hm1 with hA | hIf
    · simp at hA
    · revert hIf
      split
      · intro hIf
        rcases List.mem_append.mp hIf with h12 | h3
        · rcases List.mem_append.mp h12 with h1 | h2
          · obtain ⟨seg, hseg, hin⟩ := List.mem_flatten.mp h1
            obtain ⟨i, _, rfl⟩ := List.mem_map.mp hseg
            simp at hin
          · obtain ⟨seg, hseg, hin⟩ := List.mem_flatten.mp h2
            obtain ⟨iw, _, rfl⟩ := List.mem_map.mp hseg
            revert hin
            split <;> simp
        · obtain ⟨seg, hseg, hin⟩ := List.mem_flatten.mp h3
          obtain ⟨yy, _, rfl⟩ := List.mem_map.mp hseg
          obtain ⟨seg2, hseg2, hin2⟩ := List.mem_flatten.mp hin
          obtain ⟨xx, _, rfl⟩ := List.mem_map.mp hseg2
          revert hin2
          split <;> simp
      · intro hIf
        simp at hIf
  · simp at hm2

theorem renderPass1_no_entity (env : RenderEnv) (vp : Viewport) (e : MapEntity) :
    REvent.entity e ∉ (renderPass1 env vp).2 := by
  unfold renderPass1
  apply runR_no_entity
  intro vp1 tY
  apply runR_no_entity
  intro vp2 tX
  unfold pass1TileStep
  dsimp only
  split
  · intro hm
    simp only [List.mem_cons, List.mem_append, List.mem_singleton] at hm
    rcases hm with hm | hm | hm
    · simp at hm
    · exact renderTilePass1_no_entity env _ _ e hm
    · simp at hm
  · simp

theorem renderPass3_no_entity (env : RenderEnv) (vp : Viewport) (e : MapEntity) :
    REvent.entity e ∉ (renderPass3 env vp).2 := by
  unfold renderPass3
  apply runR_no_entity
  intro vp1 tY
  apply runR_no_entity
  intro vp2 tX
  unfold pass3TileStep
  dsimp only
  split
  · intro hm
    simp only [List.mem_cons, List.mem_append, List.mem_singleton] at hm
    rcases hm with hm | hm | hm
    · simp at hm
    · exact renderTilePass3_no_entity env _ _ e hm
    · simp at hm
  · simp

theorem renderDebug_no_entity (env : RenderEnv) (lvl : ℤ) (vp : Viewport) (e : MapEntity) :
    REvent.entity e ∉ (renderDebug env lvl vp).2 := by
  unfold renderDebug
  apply runR_no_entity
  intro vp1 tY
  apply runR_no_entity
  intro vp2 tX
  unfold debugTileStep
  split
  · intro hm
    simp only [List.mem_cons, List.mem_append, List.mem_singleton] at hm
    rcases hm with hm | hm | hm
    · simp at hm
    · exact renderTileDebug_no_entity env _ _ lvl e hm
    · simp at hm
  · simp

theorem entity_mem_pass2 (env : RenderEnv) (vp : Viewport) (e : MapEntity)
    (hm : REvent.entity e ∈ (renderPass2 env vp).2) :
    ∃ a b : Nat, a < env.width ∧ b < env.height ∧ env.visible a b = true
      ∧ goTrunc e.posX = (a : ℤ) ∧ goTrunc e.posY = (b : ℤ) := by
  unfold renderPass2 at hm
  obtain ⟨tY, htY, vp1, hm1⟩ := mem_runR hm
  obtain ⟨tX, htX, vp2, hm2⟩ := mem_runR hm1
  unfold pass2TileStep at hm2
  dsimp only at hm2
  split at hm2
  case isTrue hv =>
    simp only [List.mem_cons, List.mem_append, List.mem_singleton] at hm2
    rcases hm2 with hm2 | (hm2 | hm2) | hm2
    · simp at hm2
    · exact absurd hm2 (renderTilePass2_no_entity env _ _ e)
    · obtain ⟨ent, _, vp', hmem⟩ := mem_runR hm2
      unfold entityStep at hmem
      split at hmem
      · simp at hmem
      case isFalse hcond =>
        simp only [List.mem_cons, List.mem_singleton] at hmem
        rcases hmem with hmem | hmem | hmem
        · simp at hmem
        · injection hmem with hEq
          subst hEq
          have hc : (goTrunc e.posX != (tX : ℤ) || goTrunc e.posY != (tY : ℤ)) = false :=
            Bool.of_not_eq_true hcond
          rcases Bool.or_eq_false_iff.mp hc with ⟨hxx, hyy⟩
          exact ⟨tX, tY, List.mem_range.mp htX, List.mem_range.mp htY, hv,
            by simpa using hxx, by simpa using hyy⟩
        · simp at hmem
    · simp at hm2
  case isFalse =>
    simp at hm2

/-- Claim C7: a tile whose `IsTileVisible` test is false receives zero draw
calls — image, line, rectangle, text or entity self-draw — in pass 1, pass
2, pass 3 and the debug pass.  Formalised as: the invisible tile's loop
body emits no event and leaves the viewport unchanged in all four sweeps;
each sweep's trace is exactly the concatenation of its per-tile segments
and `Render`'s trace the concatenation of the four sweeps, so every event
of a `Render` call comes from some visible tile's body; moreover the trace
does not depend on the invisible tile's record, and every entity self-draw
in it belongs to a visible tile. -/
theorem claim7_invisible_no_draws (env : RenderEnv) (vp : Viewport) (x y : Nat)
    (h : env.visible x y = false) :
    pass1TileStep env y vp x = (vp, [])
    ∧ pass2TileStep env y vp x = (vp, [])
    ∧ pass3TileStep env y vp x = (vp, [])
    ∧ (∀ lvl : ℤ, debugTileStep env lvl y vp x = (vp, []))
    ∧ (renderPass1 env vp).2 =
        ((List.range env.height).map (fun tileY =>
          ((List.range env.width).map (fun tileX =>
            (pass1TileStep env tileY vp tileX).2)).flatten)).flatten
    ∧ (renderPass2 env vp).2 =
        ((List.range env.height).map (fun tileY =>
          ((List.range env.width).map (fun tileX =>
            (pass2TileStep env tileY vp tileX).2)).flatten)).flatten
    ∧ (renderPass3 env vp).2 =
        ((List.range env.height).map (fun tileY =>
          ((List.range env.width).map (fun tileX =>
            (pass3TileStep env tileY vp tileX).2)).flatten)).flatten
    ∧ (∀ lvl : ℤ, (renderDebug env lvl vp).2 =
        ((List.range env.height).map (fun tileY =>
          ((List.range env.width).map (fun tileX =>
            (debugTileStep env lvl tileY vp tileX).2)).flatten)).flatten)
    ∧ (Render env vp).2 =
        (renderPass1 env vp).2
          ++ (if env.debugVisLevel > 0 then (renderDebug env env.debugVisLevel vp).2 else [])
          ++ (renderPass2 env vp).2 ++ (renderPass3 env vp).2
    ∧ (∀ t : TileRecord, Render (env.setTile x y t) vp = Render env vp)
    ∧ (∀ e : MapEntity, REvent.entity e ∈ (Render env vp).2 →
        ∃ a b : Nat, a < env.width ∧ b < env.height ∧ env.visible a b = true
          ∧ goTrunc e.posX = (a : ℤ) ∧ goTrunc e.posY = (b : ℤ)) := by
  refine ⟨?_, ?_, ?_, ?_, ?_, ?_, ?_, ?_, ?_, ?_, ?_⟩
  · simp [pass1TileStep, h]
  · simp [pass2TileStep, h]
  · simp [pass3TileStep, h]
  · intro lvl
    simp [debugTileStep, h]
  · unfold renderPass1
    rw [runR_snd _ (fun vp y => runR_fst _ (pass1TileStep_fst env y) vp _)]
    refine congrArg List.flatten (List.map_congr_left ?_)
    intro tY _
    exact runR_snd _ (pass1TileStep_fst env tY) vp _
  · unfold renderPass2
    rw [runR_snd _ (fun vp y => runR_fst _ (pass2TileStep_fst env y) vp _)]
    refine congrArg List.flatten (List.map_congr_left ?_)
    intro tY _
    exact runR_snd _ (pass2TileStep_fst env tY) vp _
  · unfold renderPass3
    rw [runR_snd _ (fun vp y => runR_fst _ (pass3TileStep_fst env y) vp _)]
    refine congrArg List.flatten (List.map_congr_left ?_)
    intro tY _
    exact runR_snd _ (pass3TileStep_fst env tY) vp _
  · intro lvl
    unfold renderDebug
    rw [runR_snd _ (fun vp y => runR_fst _ (debugTileStep_fst env lvl y) vp _)]
    refine congrArg List.flatten (List.map_congr_left ?_)
    intro tY _
    exact runR_snd _ (debugTileStep_fst env lvl tY) vp _
  · unfold Render
    dsimp only
    by_cases hdbg : env.debugVisLevel > 0
    · simp only [if_pos hdbg, renderPass1_fst, renderDebug_fst, renderPass2_fst]
    · simp only [if_neg hdbg, renderPass1_fst, renderPass2_fst]
  · intro t
    exact Render_setTile_invisible env x y t h vp
  · intro e hm
    unfold Render at hm
    dsimp only at hm
    rcases List.mem_append.mp hm with hm123 | h4
    · rcases List.mem_append.mp hm123 with hm12 | h3
      · rcases List.mem_append.mp hm12 with h1 | h2
        · exact absurd h1 (renderPass1_no_entity env vp e)
        · revert h2
          split
          · intro h2
            exact absurd h2 (renderDebug_no_entity env _ _ e)
          · intro h2
            simp at h2
      · exact entity_mem_pass2 env _ e h3
    · exact absurd h4 (renderPass3_no_entity env _ e)

/-- Claim C7, witness: in the 1x1 map `envC7` the only tile is invisible,
and its pass-1 loop body emits no event. -/
theorem claim7_witness :
    pass1TileStep envC7 0 emptyVp 0 = (emptyVp, []) :=
  (claim7_invisible_no_draws envC7 emptyVp 0 0 (by decide)).1

theorem renderWall_cache_agree (env : RenderEnv)
    (c : Nat → Nat → Nat → Nat → Option Nat) (k : Nat × Nat × Nat × Nat) (vp : Viewport)
    (hagree : ∀ s q ty fr, (s, q, ty, fr) ≠ k → env.cache s q ty fr = c s q ty fr)
    (w : WallRecord) (hk : wallKey w ≠ k) :
    renderWall env vp w = renderWall (env.withCache c) vp w := by
  unfold renderWall getImageCacheRecord RenderEnv.withCache
  dsimp only
  rw [hagree w.style w.sequence w.type.code w.randomIndex hk]

theorem renderFloor_cache_agree (env : RenderEnv)
    (c : Nat → Nat → Nat → Nat → Option Nat) (k : Nat × Nat × Nat × Nat) (vp : Viewport)
    (hagree : ∀ s q ty fr, (s, q, ty, fr) ≠ k → env.cache s q ty fr = c s q ty fr)
    (f : FloorShadowRecord) (hk : floorKey env f ≠ k) :
    renderFloor env vp f = renderFloor (env.withCache c) vp f := by
  unfold renderFloor getImageCacheRecord RenderEnv.withCache
  dsimp only
  cases hanim : f.animated with
  | false =>
    have hk' : (f.style, f.sequence, 0, f.randomIndex) ≠ k := by
      simpa [floorKey, hanim] using hk
    simp only [hanim, Bool.not_false, if_true]
    rw [hagree f.style f.sequence 0 f.randomIndex hk']
  | true =>
    have hk' : (f.style, f.sequence, 0, byteOf env.currentFrame) ≠ k := by
      simpa [floorKey, hanim] using hk
    simp only [hanim, Bool.not_true, Bool.false_eq_true, if_false]
    rw [hagree f.style f.sequence 0 (byteOf env.currentFrame) hk']

theorem renderShadow_cache_agree (env : RenderEnv)
    (c : Nat → Nat → Nat → Nat → Option Nat) (k : Nat × Nat × Nat × Nat) (vp : Viewport)
    (hagree : ∀ s q ty fr, (s, q, ty, fr) ≠ k → env.cache s q ty fr = c s q ty fr)
    (f : FloorShadowRecord) (hk : shadowKey f ≠ k) :
    renderShadow env vp f = renderShadow (env.withCache c) vp f := by
  unfold renderShadow getImageCacheRecord RenderEnv.withCache
  dsimp only
  rw [hagree f.style f.sequence 13 f.randomIndex hk]

theorem renderTilePass1_cache_agree (env : RenderEnv)
    (c : Nat → Nat → Nat → Nat → Option Nat) (k : Nat × Nat × Nat × Nat) (vp : Viewport)
    (hagree : ∀ s q ty fr, (s, q, ty, fr) ≠ k → env.cache s q ty fr = c s q ty fr)
    (tile : TileRecord)
    (hw : ∀ w ∈ tile.walls, wallKey w ≠ k)
    (hf : ∀ f ∈ tile.floors, floorKey env f ≠ k)
    (hs : ∀ s ∈ tile.shadows, shadowKey s ≠ k) :
    renderTilePass1 env vp tile = renderTilePass1 (env.withCache c) vp tile := by
  unfold renderTilePass1
  have hW : ∀ vp0 : Viewport,
      runR (fun vp wall =>
        if !wall.hidden && wall.prop1 != 0 && wall.type.lowerWall then renderWall env vp wall
        else (vp, [])) vp0 tile.walls
      = runR (fun vp wall =>
        if !wall.hidden && wall.prop1 != 0 && wall.type.lowerWall then
          renderWall (env.withCache c) vp wall
        else (vp, [])) vp0 tile.walls := fun vp0 =>
    runR_congr vp0 tile.walls (fun vp' a ha => by
      split
      · exact renderWall_cache_agree env c k vp' hagree a (hw a ha)
      · rfl)
  have hF : ∀ vp0 : Viewport,
      runR (fun vp floor =>
        if !floor.hidden && floor.prop1 != 0 then renderFloor env vp floor
        else (vp, [])) vp0 tile.floors
      = runR (fun vp floor =>
        if !floor.hidden && floor.prop1 != 0 then renderFloor (env.withCache c) vp floor
        else (vp, [])) vp0 tile.floors := fun vp0 =>
    runR_congr vp0 tile.floors (fun vp' a ha => by
      split
      · exact renderFloor_cache_agree env c k vp' hagree a (hf a ha)
      · rfl)
  have hS : ∀ vp0 : Viewport,
      runR (fun vp shadow =>
        if !shadow.hidden && shadow.prop1 != 0 then renderShadow env vp shadow
        else (vp, [])) vp0 tile.shadows
      = runR (fun vp shadow =>
        if !shadow.hidden && shadow.prop1 != 0 then renderShadow (env.withCache c) vp shadow
        else (vp, [])) vp0 tile.shadows := fun vp0 =>
    runR_congr vp0 tile.shadows (fun vp' a ha => by
      split
      · exact renderShadow_cache_agree env c k vp' hagree a (hs a ha)
      · rfl)
  simp only [hW, hF, hS]

theorem renderWall_miss (env : RenderEnv) (vp : Viewport) (w : WallRecord)
    (h : env.cache w.style w.sequence w.type.code w.randomIndex = none) :
    renderWall env vp w = (vp, [REvent.missWall w.style w.sequence w.type.code]) := by
  unfold renderWall getImageCacheRecord
  rw [h]

theorem renderFloor_miss (env : RenderEnv) (vp : Viewport) (f : FloorShadowRecord)
    (h : env.cache f.style f.sequence 0
        (if !f.animated then f.randomIndex else byteOf env.currentFrame) = none) :
    renderFloor env vp f = (vp, [REvent.missFloor f.style f.sequence]) := by
  unfold renderFloor getImageCacheRecord
  cases hanim : f.animated with
  | false =>
    simp only [hanim, Bool.not_false, if_true]
    rw [show env.cache f.style f.sequence 0 f.randomIndex = none by
      simpa [hanim] using h]
  | true =>
    simp only [hanim, Bool.not_true, Bool.false_eq_true, if_false]
    rw [show env.cache f.style f.sequence 0 (byteOf env.currentFrame) = none by
      simpa [hanim] using h]

theorem renderShadow_miss (env : RenderEnv) (vp : Viewport) (f : FloorShadowRecord)
    (h : env.cache f.style f.sequence 13 f.randomIndex = none) :
    renderShadow env vp f = (vp, [REvent.missShadow f.style f.sequence]) := by
  unfold renderShadow getImageCacheRecord
  rw [h]

/-- Claim C8: an image-cache miss is local — a wall, floor or shadow
sub-record whose lookup is absent produces exactly one log line, no
surface operations, and leaves the viewport untouched (the last three
conjuncts); and for two caches that agree everywhere except one key `k`,
the draw of every wall, floor or shadow sub-record whose own key differs
from `k` — and the whole pass-1 trace of every tile containing no
`k`-keyed sub-record — is identical, so no other sub-record's or tile's
draws change when that one lookup starts to succeed. -/
theorem claim8_cache_miss_isolated (env : RenderEnv)
    (c : Nat → Nat → Nat → Nat → Option Nat) (k : Nat × Nat × Nat × Nat) (vp : Viewport)
    (hagree : ∀ s q ty fr, (s, q, ty, fr) ≠ k → env.cache s q ty fr = c s q ty fr) :
    (∀ w : WallRecord, wallKey w ≠ k →
        renderWall env vp w = renderWall (env.withCache c) vp w)
    ∧ (∀ f : FloorShadowRecord, floorKey env f ≠ k →
        renderFloor env vp f = renderFloor (env.withCache c) vp f)
    ∧ (∀ s : FloorShadowRecord, shadowKey s ≠ k →
        renderShadow env vp s = renderShadow (env.withCache c) vp s)
    ∧ (∀ tile : TileRecord, (∀ w ∈ tile.walls, wallKey w ≠ k) →
        (∀ f ∈ tile.floors, floorKey env f ≠ k) →
        (∀ s ∈ tile.shadows, shadowKey s ≠ k) →
        renderTilePass1 env vp tile = renderTilePass1 (env.withCache c) vp tile)
    ∧ (∀ w : WallRecord, env.cache w.style w.sequence w.type.code w.randomIndex = none →
        renderWall env vp w = (vp, [REvent.missWall w.style w.sequence w.type.code]))
    ∧ (∀ f : FloorShadowRecord, env.cache f.style f.sequence 0
          (if !f.animated then f.randomIndex else byteOf env.currentFrame) = none →
        renderFloor env vp f = (vp, [REvent.missFloor f.style f.sequence]))
    ∧ (∀ s : FloorShadowRecord, env.cache s.style s.sequence 13 s.randomIndex = none →
        renderShadow env vp s = (vp, [REvent.missShadow s.style s.sequence])) :=
  ⟨fun w hk => renderWall_cache_agree env c k vp hagree w hk,
   fun f hk => renderFloor_cache_agree env c k vp hagree f hk,
   fun s hk => renderShadow_cache_agree env c k vp hagree s hk,
   fun tile hw hf hs => renderTilePass1_cache_agree env c k vp hagree tile hw hf hs,
   fun w h => renderWall_miss env vp w h,
   fun f h => renderFloor_miss env vp f h,
   fun s h => renderShadow_miss env vp s h⟩

/-- Claim C8, witness: `cacheMissC8` misses exactly at `keyC8` and
`cacheHitC8` fills it in; the wall `wallC8`, whose key differs, draws
identically under both, the wall `wallC8miss` at the missing key logs and
is skipped, and the shadow `shadowC8miss` at the missing shadow key of
`envC8s` likewise logs and is skipped. -/
theorem claim8_witness :
    renderWall envC8 emptyVp wallC8 = renderWall (envC8.withCache cacheHitC8) emptyVp wallC8
    ∧ renderWall envC8 emptyVp wallC8miss =
        (emptyVp, [REvent.missWall wallC8miss.style wallC8miss.sequence wallC8miss.type.code])
    ∧ renderShadow envC8s emptyVp shadowC8miss =
        (emptyVp, [REvent.missShadow shadowC8miss.style shadowC8miss.sequence]) :=
  ⟨(claim8_cache_miss_isolated envC8 cacheHitC8 keyC8 emptyVp
      (fun s q ty fr h => by simp [envC8, cacheMissC8, cacheHitC8, h])).1 wallC8 (by decide),
   (claim8_cache_miss_isolated envC8 cacheHitC8 keyC8 emptyVp
      (fun s q ty fr h => by simp [envC8, cacheMissC8, cacheHitC8, h])).2.2.2.2.1 wallC8miss
     (by decide),
   (claim8_cache_miss_isolated envC8s cacheHitC8 keyShadowC8 emptyVp
      (fun s q ty fr h => by simp [envC8s, cacheMissShadowC8, cacheHitC8, h])).2.2.2.2.2.2
     shadowC8miss (by decide)⟩

/-- Claim C3, counterexample: with float64 arithmetic the literal scenario
fails — after `Advance(0.25)` the accumulator is the double just below
`0.05`, not `0.05`, and the second `Advance(0.25)` accumulates to the
double `0.3`, whose quotient by the double `0.1` is `2.9999999999999996`,
so only 2 ticks are consumed and the frame index ends at 4, not 5. -/
theorem claim3_counterexample :
    ¬ ((Advance quarter initClock).lastFrameTime.eqv ⟨1, 20⟩
       ∧ (Advance quarter initClock).currentFrame = 2
       ∧ (Advance quarter (Advance quarter initClock)).lastFrameTime.eqv ⟨0, 1⟩
       ∧ (Advance quarter (Advance quarter initClock)).currentFrame = 5) := by
  decide

/-- Claim C3, amended: `Advance(0.25)` from the initial state consumes 2
ticks and leaves the accumulator at exactly `900719925474099 / 2 ^ 54`
(the double below `0.05`); the second `Advance(0.25)` consumes 2 further
ticks (the float64 quotient `0.3 / 0.1` truncates to 2), leaving frame
index 4 and accumulator exactly `900719925474099 / 2 ^ 53`. -/
theorem claim3_amended :
    (Advance quarter initClock).currentFrame = 2
    ∧ (Advance quarter initClock).lastFrameTime.eqv ⟨900719925474099, 18014398509481984⟩
    ∧ (Advance quarter (Advance quarter initClock)).currentFrame = 4
    ∧ (Advance quarter (Advance quarter initClock)).lastFrameTime.eqv
        ⟨900719925474099, 9007199254740992⟩ := by
  decide

theorem advance_currentFrame_le (e : Frac) (s : ClockState) :
    (Advance e s).currentFrame ≤ 9 := by
  unfold Advance
  dsimp only
  split
  · decide
  · omega

/-- Claim C4, counterexample: both deltas are nonnegative
(`8780753229072219` seconds, then `0` seconds), yet the frame index ends at
`-10`: the float64 quotient of the large value by `0.1` rounds up past an
integer, the back-multiplication overshoots, and the accumulator is left at
exactly `-1.0`, so the second call computes `int(-1.0 / 0.1) = -10` ticks. -/
theorem claim4_counterexample :
    (runClock [bigDelta, ⟨0, 1⟩] initClock).currentFrame = -10
    ∧ ¬(0 ≤ (runClock [bigDelta, ⟨0, 1⟩] initClock).currentFrame) := by
  decide

/-- Claim C4, amended: after any sequence of `Advance` calls from the
initial state the frame index is an integer at most 9 (the reset in the
source caps it), but it is not always at least 0: a large elapsed value can
leave the accumulator more than one frame-length negative, making a later
tick count negative (see the counterexample). -/
theorem claim4_amended (deltas : List Frac) :
    (runClock deltas initClock).currentFrame ≤ 9 := by
  have key : ∀ (ds : List Frac) (s : ClockState),
      s.currentFrame ≤ 9 → (runClock ds s).currentFrame ≤ 9 := by
    intro ds
    induction ds with
    | nil => exact fun s h => h
    | cons d ds ih => exact fun s _ => ih (Advance d s) (advance_currentFrame_le d s)
  exact key deltas initClock (by decide)

/-- Claim C9, counterexample: the deltas `0.25, 0.25` are nonnegative, sum
exactly to `0.5`, and neither run lets the frame index pass 9, yet the
split run ends at frame 4 while the single `Advance(0.5)` ends at frame 5:
float64 rounding loses a tick across the split. -/
theorem claim9_counterexample :
    (runClock [quarter, quarter] initClock).currentFrame = 4
    ∧ (Advance half initClock).currentFrame = 5
    ∧ (quarter.add quarter).eqv half
    ∧ runClock [quarter, quarter] initClock ≠ Advance half initClock := by
  decide

theorem div_tenth (x : ℚ) : x / (1 / 10 : ℚ) = x * 10 := by
  rw [div_eq_mul_inv, show ((1 : ℚ) / 10)⁻¹ = 10 from by norm_num]

theorem advanceSpec_acc_bounds (e : ℚ) (s : ClockSpecState) :
    0 ≤ (AdvanceSpec e s).lastFrameTime
    ∧ (AdvanceSpec e s).lastFrameTime < 1 / 10 := by
  unfold AdvanceSpec
  dsimp only
  simp only [div_tenth]
  have hfl_le : (⌊(s.lastFrameTime + e) * 10⌋ : ℚ) ≤ (s.lastFrameTime + e) * 10 :=
    Int.floor_le _
  have hfl_gt : (s.lastFrameTime + e) * 10 < ⌊(s.lastFrameTime + e) * 10⌋ + 1 :=
    Int.lt_floor_add_one _
  constructor
  · linarith
  · linarith

theorem floor_shift_frameLength (t R : ℚ) :
    ⌊((t - (⌊t / (1 / 10 : ℚ)⌋ : ℚ) * (1 / 10)) + R) / (1 / 10 : ℚ)⌋
      = ⌊(t + R) / (1 / 10 : ℚ)⌋ - ⌊t / (1 / 10 : ℚ)⌋ := by
  simp only [div_tenth]
  have h : (t - (⌊t * 10⌋ : ℚ) * (1 / 10) + R) * 10 = (t + R) * 10 - (⌊t * 10⌋ : ℚ) := by
    ring
  rw [h, Int.floor_sub_int]

theorem runSpec_normal (deltas : List ℚ) : ∀ s : ClockSpecState,
    0 ≤ s.lastFrameTime → s.lastFrameTime < 1 / 10 →
    (∀ d ∈ deltas, 0 ≤ d) →
    s.currentFrame + ⌊(s.lastFrameTime + deltas.sum) / (1 / 10 : ℚ)⌋ ≤ 9 →
    runSpec deltas s =
      ⟨(s.lastFrameTime + deltas.sum)
         - (⌊(s.lastFrameTime + deltas.sum) / (1 / 10 : ℚ)⌋ : ℚ) * (1 / 10),
       s.currentFrame + ⌊(s.lastFrameTime + deltas.sum) / (1 / 10 : ℚ)⌋⟩ := by
  induction deltas with
  | nil =>
    intro s h0 h1 _ _
    obtain ⟨acc, fr⟩ := s
    simp only [runSpec, List.foldl_nil, List.sum_nil, add_zero]
    have hfl : ⌊acc / (1 / 10 : ℚ)⌋ = 0 := by
      rw [div_tenth, Int.floor_eq_zero_iff, Set.mem_Ico]
      dsimp only at h0 h1
      constructor
      · linarith
      · linarith
    rw [hfl]
    simp
  | cons d ds ih =>
    intro s h0 h1 hd hw
    have hdpos : 0 ≤ d := hd d (List.mem_cons_self d ds)
    have hds : ∀ x ∈ ds, 0 ≤ x := fun x hx => hd x (List.mem_cons_of_mem d hx)
    have hsnn : 0 ≤ ds.sum := List.sum_nonneg hds
    have hsum : (d :: ds).sum = d + ds.sum := by simp
    rw [hsum] at hw ⊢
    have hmono : ⌊(s.lastFrameTime + d) / (1 / 10 : ℚ)⌋
        ≤ ⌊(s.lastFrameTime + (d + ds.sum)) / (1 / 10 : ℚ)⌋ := by
      apply Int.floor_le_floor
      rw [div_tenth, div_tenth]
      linarith
    have hframe1 : s.currentFrame + ⌊(s.lastFrameTime + d) / (1 / 10 : ℚ)⌋ ≤ 9 := by
      omega
    have hadv : AdvanceSpec d s =
        ⟨(s.lastFrameTime + d) - (⌊(s.lastFrameTime + d) / (1 / 10 : ℚ)⌋ : ℚ) * (1 / 10),
         s.currentFrame + ⌊(s.lastFrameTime + d) / (1 / 10 : ℚ)⌋⟩ := by
      unfold AdvanceSpec
      dsimp only
      rw [if_neg (by omega)]
    obtain ⟨hb0, hb1⟩ := advanceSpec_acc_bounds d s
    rw [hadv] at hb0 hb1
    have hshift := floor_shift_frameLength (s.lastFrameTime + d) ds.sum
    rw [show s.lastFrameTime + d + ds.sum = s.lastFrameTime + (d + ds.sum) from by ring]
      at hshift
    show runSpec ds (AdvanceSpec d s) = _
    rw [hadv]
    rw [ih _ hb0 hb1 hds (by dsimp only; rw [hshift]; omega)]
    dsimp only
    refine congrArg₂ ClockSpecState.mk ?_ ?_
    · rw [hshift]
      push_cast
      ring
    · rw [hshift]
      omega

/-- Claim C9, amended: the exact-arithmetic animation clock the spec
describes does satisfy no-drift — starting from any state with accumulator
in `[0, 1/10)`, a sequence of nonnegative deltas whose total consumption
keeps the frame index at most 9 produces exactly the same final state as a
single call with the summed delta — but the float64 implementation
violates it (deltas `0.25, 0.25` against `0.5` end at frame 4 versus 5,
see the counterexample). -/
theorem claim9_amended (deltas : List ℚ) (s : ClockSpecState)
    (h0 : 0 ≤ s.lastFrameTime) (h1 : s.lastFrameTime < 1 / 10)
    (hd : ∀ d ∈ deltas, 0 ≤ d)
    (hw : s.currentFrame + ⌊(s.lastFrameTime + deltas.sum) / (1 / 10 : ℚ)⌋ ≤ 9) :
    runSpec deltas s = AdvanceSpec deltas.sum s := by
  rw [runSpec_normal deltas s h0 h1 hd hw]
  unfold AdvanceSpec
  dsimp only
  rw [if_neg (by omega)]

/-- Claim C9, witness: two exact steps of `1/20` and `3/20` equal one exact
step of their sum. -/
theorem claim9_witness :
    runSpec [1 / 20, 3 / 20] initSpec = AdvanceSpec (List.sum [1 / 20, 3 / 20]) initSpec :=
  claim9_amended [1 / 20, 3 / 20] initSpec le_rfl (by norm_num [initSpec])
    (by
      intro d hdm
      rcases List.mem_cons.mp hdm with rfl | hdm
      · norm_num
      · rcases List.mem_cons.mp hdm with rfl | hdm
        · norm_num
        · simp at hdm)
    (by norm_num [initSpec, div_tenth])

